import Mathlib

/-!
Verification of the governance deployment scripts (hardhat.config.ts,
scripts/providerSetup.ts) against their natural-language specification.

The TypeScript source is shallowly embedded: every definition below is a
direct transliteration of a function (or of the observable action sequence
of a function) in the source.  JavaScript numbers used as integers become
Nat / Int, BigNumber wei amounts become Nat, fallible code returns Except,
and side-effecting code is modelled by the list of externally visible
actions it performs, in program order.
-/

/-! ### Recipient Mapper: mapPointsToAmounts (hardhat.config.ts) -/

/-- Embeds ethers' parseEther applied to a whole-token decimal string:
the token amount scaled by 10^18. -/
def parseEther (tokens : Nat) : Nat := tokens * 10 ^ 18

/-- Embeds the switch statement of mapPointsToAmounts: the fixed
points-to-amount table.  Returns none exactly on the default branch
(the branch that throws in the source). -/
def amountForPoints (points : Int) : Option Nat :=
  if points = 3 then some (parseEther 3000)
  else if points = 4 then some (parseEther 4500)
  else if points = 5 then some (parseEther 6000)
  else if points = 6 then some (parseEther 9000)
  else if points = 7 then some (parseEther 10500)
  else if points = 8 ∨ points = 9 ∨ points = 10 ∨ points = 11 ∨ points = 12 ∨
      points = 13 ∨ points = 14 ∨ points = 15 then some (parseEther 12000)
  else none

/-- The closed set of points values the switch accepts. -/
def validPoints : List Int := [3, 4, 5, 6, 7, 8, 9, 10, 11, 12, 13, 14, 15]

/-- Embeds the message of the error thrown on the default branch of
mapPointsToAmounts. -/
def pointsErrorMessage (key : String) (points : Int) : String :=
  "Incorrect number of points for account " ++ key ++ ": " ++ toString points

/-- Embeds mapPointsToAmounts.  The JSON object (account -> points record)
is embedded as an association list in iteration order; the thrown error
becomes Except.error, which discards the partially accumulated arrays just
as the exception does in the source. -/
def mapPointsToAmounts : List (String × Int) → Except String (List String × List Nat)
  | [] => Except.ok ([], [])
  | (key, points) :: rest =>
    match amountForPoints points with
    | some amount =>
      match mapPointsToAmounts rest with
      | Except.ok (tokenRecipients, tokenAmounts) =>
        Except.ok (key :: tokenRecipients, amount :: tokenAmounts)
      | Except.error e => Except.error e
    | none => Except.error (pointsErrorMessage key points)

/-! ### Gas Guard (setClaimRecipients, hardhat.config.ts) -/

/-- Embeds the constant GAS_PRICE_UNACCEPTABLE_LIMIT: 0.12 gwei in wei. -/
def GAS_PRICE_UNACCEPTABLE_LIMIT : Nat := 120000000

/-- Embeds the constant BASE_GAS_PRICE: 0.1 gwei in wei. -/
def BASE_GAS_PRICE : Nat := 100000000

/-- Embeds the inner while-true loop of the gas guard: each iteration
sleeps, re-samples the gas price, and breaks exactly when the sample
equals basePrice.  The samples the oracle would return are passed as a
list; the result counts the samples consumed, none meaning the loop never
observes basePrice within the given samples (the source loops on). -/
def gasGuardLoop : List Nat → Nat → Option Nat
  | [], _ => none
  | s :: rest, basePrice =>
    if s = basePrice then some 1
    else Option.map (fun n => n + 1) (gasGuardLoop rest basePrice)

/-- Embeds the gas-guard prelude of each batch iteration: sample the gas
price once; if it exceeds the limit enter the polling loop, otherwise
proceed immediately.  Returns the total number of samples observed before
the guard lets the batch proceed. -/
def gasGuard (samples : List Nat) (limit basePrice : Nat) : Option Nat :=
  match samples with
  | [] => none
  | first :: rest =>
    if first > limit then Option.map (fun n => n + 1) (gasGuardLoop rest basePrice)
    else some 1

/-! ### Batch Scheduler (setClaimRecipients, hardhat.config.ts) -/

/-- Embeds the batching loop of setClaimRecipients restricted to the
slices it submits.  The for-loop runs the index from startBatch through
numOfBatches inclusive; an index below numOfBatches submits the full
slice of batchSize elements, the terminal index submits the remainder
slice, or nothing (the source breaks) when the list length is an exact
multiple of batchSize.  filterMap over the index range reproduces this:
the terminal index is the last one, so break and skip coincide. -/
def batchSlices {α : Type} (recipients : List α) (batchSize startBatch : Nat) :
    List (List α) :=
  let numOfBatches := recipients.length / batchSize
  (List.range' startBatch (numOfBatches + 1 - startBatch)).filterMap (fun i =>
    if i < numOfBatches then some ((recipients.drop (i * batchSize)).take batchSize)
    else if recipients.length = numOfBatches * batchSize then none
    else some (recipients.drop (i * batchSize)))

/-- Events observable from one run of the setClaimRecipients loop.  The
persistCursor constructor exists so that the specification's claimed
cursor checkpointing is expressible; the source loop body only submits
batches (and logs), so the embedding below never emits it. -/
inductive BatchEvent
  | submitBatch (i : Nat)
  | persistCursor (startBatch : Nat)
  deriving DecidableEq, BEq

/-- Embeds the same loop as batchSlices, recording the per-index events.
Each executed index yields exactly one submitBatch event; the loop body
contains no write to the deployed-contracts cache or to disk, hence no
persistCursor event.  The start index is the compile-time constant
L2_NUM_OF_RECIPIENT_BATCHES_ALREADY_SET, passed here as startBatch. -/
def setClaimRecipientsEvents (recipients : List String) (batchSize startBatch : Nat) :
    List BatchEvent :=
  let numOfBatches := recipients.length / batchSize
  (List.range' startBatch (numOfBatches + 1 - startBatch)).filterMap (fun i =>
    if i < numOfBatches then some (BatchEvent.submitBatch i)
    else if recipients.length = numOfBatches * batchSize then none
    else some (BatchEvent.submitBatch i))

/-- Recognizes batch-submission events. -/
def isSubmitEvent : BatchEvent → Bool
  | BatchEvent.submitBatch _ => true
  | BatchEvent.persistCursor _ => false

/-! ### Deployment Sequencer (deployGovernance, hardhat.config.ts) -/

/-- The thirteen top-level deployment steps, named after the functions
deployGovernance calls, in call order. -/
inductive Step
  | deployL1LogicContracts
  | deployL2LogicContracts
  | deployL1GovernanceFactory
  | deployAndInitL1Token
  | deployL2GovernanceFactory
  | deployNovaUpgradeExecutor
  | deployTokenToNova
  | initL2Governance
  | initL1Governance
  | setExecutorRoles
  | postDeploymentL1TokenTasks
  | postDeploymentL2TokenTasks
  | deployAndInitTokenDistributor
  deriving DecidableEq, BEq

/-- Source-function name of each step, used as a completion-marker key
when discussing the specification's gating. -/
def stepName : Step → String
  | Step.deployL1LogicContracts => "deployL1LogicContracts"
  | Step.deployL2LogicContracts => "deployL2LogicContracts"
  | Step.deployL1GovernanceFactory => "deployL1GovernanceFactory"
  | Step.deployAndInitL1Token => "deployAndInitL1Token"
  | Step.deployL2GovernanceFactory => "deployL2GovernanceFactory"
  | Step.deployNovaUpgradeExecutor => "deployNovaUpgradeExecutor"
  | Step.deployTokenToNova => "deployTokenToNova"
  | Step.initL2Governance => "initL2Governance"
  | Step.initL1Governance => "initL1Governance"
  | Step.setExecutorRoles => "setExecutorRoles"
  | Step.postDeploymentL1TokenTasks => "postDeploymentL1TokenTasks"
  | Step.postDeploymentL2TokenTasks => "postDeploymentL2TokenTasks"
  | Step.deployAndInitTokenDistributor => "deployAndInitTokenDistributor"

/-- The deployedContracts keys each step writes (in-memory) in the
source, in write order. -/
def stepKeys : Step → List String
  | Step.deployL1LogicContracts => ["l1UpgradeExecutorLogic"]
  | Step.deployL2LogicContracts =>
    ["l2TimelockLogic", "l2GovernorLogic", "l2FixedDelegateLogic", "l2TokenLogic",
      "l2UpgradeExecutorLogic"]
  | Step.deployL1GovernanceFactory => ["l1GovernanceFactory"]
  | Step.deployAndInitL1Token => ["l1TokenLogic", "l1TokenProxy"]
  | Step.deployL2GovernanceFactory => ["l2GovernanceFactory"]
  | Step.deployNovaUpgradeExecutor =>
    ["novaProxyAdmin", "novaUpgradeExecutorLogic", "novaUpgradeExecutorProxy"]
  | Step.deployTokenToNova => ["novaTokenLogic", "novaTokenProxy"]
  | Step.initL2Governance =>
    ["l2CoreGoverner", "l2CoreTimelock", "l2Executor", "l2ProxyAdmin", "l2Token",
      "l2TreasuryGoverner", "l2ArbTreasury"]
  | Step.initL1Governance => ["l1Executor", "l1ProxyAdmin", "l1Timelock"]
  | Step.setExecutorRoles => []
  | Step.postDeploymentL1TokenTasks => []
  | Step.postDeploymentL2TokenTasks => []
  | Step.deployAndInitTokenDistributor => ["l2TokenDistributor"]

/-- The fixed call order of deployGovernance. -/
def governanceDeploySequence : List Step :=
  [Step.deployL1LogicContracts, Step.deployL2LogicContracts,
    Step.deployL1GovernanceFactory, Step.deployAndInitL1Token,
    Step.deployL2GovernanceFactory, Step.deployNovaUpgradeExecutor,
    Step.deployTokenToNova, Step.initL2Governance, Step.initL1Governance,
    Step.setExecutorRoles, Step.postDeploymentL1TokenTasks,
    Step.postDeploymentL2TokenTasks, Step.deployAndInitTokenDistributor]

/-- Externally visible events of a deployGovernance run: the on-chain
actions of a step (grouped per step), writes to the in-memory
deployedContracts map, and a write of that map to disk (writeAddresses /
fs.writeFileSync). -/
inductive DeployEvent
  | chainCall (s : Step)
  | memWrite (key : String)
  | persistDisk
  deriving DecidableEq, BEq

/-- Event trace of one step: its chain calls followed by its
deployedContracts writes, as in the source step functions. -/
def stepTrace (s : Step) : List DeployEvent :=
  DeployEvent.chainCall s :: (stepKeys s).map DeployEvent.memWrite

/-- Embeds deployGovernance as its event trace: every step is executed
unconditionally in order (the source contains no completion checks and
never reads a progress file), and writeAddresses persists the accumulated
map to disk exactly once, after the last step. -/
def deployGovernanceTrace : List DeployEvent :=
  (governanceDeploySequence.map stepTrace).flatten ++ [DeployEvent.persistDisk]

/-- The steps deployGovernance executes given the on-disk progress-store
contents at startup.  The source never reads that file during the run, so
the executed steps do not depend on it. -/
def deployGovernanceSteps (progressStore : List String) : List Step :=
  deployGovernanceTrace.filterMap (fun e =>
    match e with
    | DeployEvent.chainCall s => some s
    | _ => none)

/-- Modelled from the spec: the completion-check gating of spec section
4.5 ("each gated by a completion check against the Progress Store, skip
if already marked done").  No counterpart exists in deployGovernance in
the source; this definition follows the spec words so the source
behaviour can be compared against it. -/
def gatedDeploySteps (progressStore : List String) : List Step :=
  governanceDeploySequence.filter (fun s => !(progressStore.contains (stepName s)))

/-- Decides whether a trace persists to disk between every two
consecutive chain-calling steps, i.e. whether each step's artifacts are
durably saved before the next step begins.  The first flag records
whether a step has been seen, the second whether a disk persist has been
seen since the last step. -/
def eachStepPersistedAux : List DeployEvent → Bool → Bool → Bool
  | [], _, _ => true
  | DeployEvent.persistDisk :: rest, inStep, _ => eachStepPersistedAux rest inStep true
  | DeployEvent.memWrite _ :: rest, inStep, persisted =>
    eachStepPersistedAux rest inStep persisted
  | DeployEvent.chainCall _ :: rest, inStep, persisted =>
    if inStep && !persisted then false else eachStepPersistedAux rest true false

/-- Top-level form of eachStepPersistedAux. -/
def eachStepPersisted (trace : List DeployEvent) : Bool :=
  eachStepPersistedAux trace false false

/-! ### Progress Store persistence (writeAddresses, updateDeployedContracts) -/

/-- Filesystem operations a persistence routine may perform. -/
inductive FsOp
  | writeFileSync (path contents : String)
  | renameSync (src dst : String)
  deriving DecidableEq, BEq

/-- Embeds the constant DEPLOYED_CONTRACTS_FILE_NAME. -/
def DEPLOYED_CONTRACTS_FILE_NAME : String := "deployedContracts.json"

/-- Embeds updateDeployedContracts (providerSetup.ts): a single direct
fs.writeFileSync of the serialized cache to the configured location. -/
def updateDeployedContracts (deployedContractsLocation serializedCache : String) :
    List FsOp :=
  [FsOp.writeFileSync deployedContractsLocation serializedCache]

/-- Embeds writeAddresses (hardhat.config.ts): a single direct
fs.writeFileSync of the serialized deployedContracts map. -/
def writeAddresses (serializedContracts : String) : List FsOp :=
  [FsOp.writeFileSync DEPLOYED_CONTRACTS_FILE_NAME serializedContracts]

/-- Decides whether an operation sequence is a write-to-temp-then-rename
atomic replacement of the target file, the pattern the specification
requires of the store's set operation. -/
def atomicReplace (ops : List FsOp) (target : String) : Bool :=
  match ops with
  | [FsOp.writeFileSync tmpPath _, FsOp.renameSync src dst] =>
    tmpPath == src && dst == target && !(tmpPath == target)
  | _ => false

/-! ### Cross-chain message status checks (postDeploymentL1TokenTasks) -/

/-- Embeds L1ToL2MessageStatus.REDEEMED of the arbitrum sdk enum
(NOT_YET_CREATED = 1, CREATION_FAILED = 2, FUNDS_DEPOSITED_ON_L2 = 3,
REDEEMED = 4, EXPIRED = 5). -/
def REDEEMED : Nat := 4

/-- Embeds the tail of postDeploymentL1TokenTasks: after awaiting the
terminal status of both L1-to-L2 messages, throw when the first (register
token) is not redeemed, then when the second (set gateway) is not
redeemed, else succeed. -/
def postDeploymentL1TokenStatusChecks (setTokenStatus setGatewaysStatus : Nat) :
    Except String Unit :=
  if setTokenStatus ≠ REDEEMED then
    Except.error
      ("Register token L1 to L2 message not redeemed. Status: " ++ toString setTokenStatus)
  else if setGatewaysStatus ≠ REDEEMED then
    Except.error
      ("Set gateway L1 to L2 message not redeemed. Status: " ++ toString setGatewaysStatus)
  else Except.ok ()

/-! ### Environment mode selection (providerSetup.ts) -/

/-- Embeds isLocalDeployment: the DEPLOY_TO_LOCAL_ENVIRONMENT variable
(none when unset) is compared against the exact string "false" with
strict inequality. -/
def isLocalDeployment (deployToLocalEnvVar : Option String) : Bool :=
  !(deployToLocalEnvVar == some "false")

/-- Embeds the constant ETH_CHAIN_ID. -/
def ETH_CHAIN_ID : Nat := 1

/-- Embeds the constant ARBITRUM_ONE_CHAIN_ID. -/
def ARBITRUM_ONE_CHAIN_ID : Nat := 42161

/-- Embeds the constant ARBITRUM_NOVA_CHAIN_ID. -/
def ARBITRUM_NOVA_CHAIN_ID : Nat := 42170

/-- Embeds the chain-id guards of the local branch of
getDeployersAndConfig: reject the production chain ids. -/
def localEnvChainIdChecks (l1ChainId l2ChainId novaChainId : Nat) : Except String Unit :=
  if l1ChainId = ETH_CHAIN_ID then
    Except.error ("Production chain ID used in test env for L1")
  else if l2ChainId = ARBITRUM_ONE_CHAIN_ID then
    Except.error ("Production chain ID used in test env for L2")
  else if novaChainId = ARBITRUM_NOVA_CHAIN_ID then
    Except.error ("Production chain ID used in test env for Nova")
  else Except.ok ()

/-- Embeds the chain-id guards of the production branch of
getDeployersAndConfig: require the production chain ids. -/
def productionChainIdChecks (ethChainId arbChainId novaChainId : Nat) : Except String Unit :=
  if ethChainId ≠ ETH_CHAIN_ID then
    Except.error ("Production chain ID should be used in production mode for L1")
  else if arbChainId ≠ ARBITRUM_ONE_CHAIN_ID then
    Except.error ("Production chain ID should be used in production mode for L2")
  else if novaChainId ≠ ARBITRUM_NOVA_CHAIN_ID then
    Except.error ("Production chain ID should be used in production mode for Nova")
  else Except.ok ()

/-- Embeds the checkEnvVars guard on the DEPLOY_TO_LOCAL_ENVIRONMENT
variable: an unset variable (undefined in the source, none here) is a
fatal startup error, thrown before any mode selection; any set string,
the empty string included, passes the guard. -/
def checkIsLocalDeploymentVar (deployToLocalEnvVar : Option String) : Except String Unit :=
  match deployToLocalEnvVar with
  | none => Except.error ("Missing isLocalDeployment in env vars")
  | some _ => Except.ok ()

/-- Embeds getDeployersAndConfig up to its chain-id validation: first
the checkEnvVars gate, whose isLocalDeployment check throws when the
mode variable is unset, then the branch on isLocalDeployment selecting
which chain-id checks run.  The remaining variables checkEnvVars
inspects are separate inputs that do not influence mode selection and
are taken as present here. -/
def getDeployersAndConfigChainIdChecks (deployToLocalEnvVar : Option String)
    (ethChainId arbChainId novaChainId : Nat) : Except String Unit :=
  match checkIsLocalDeploymentVar deployToLocalEnvVar with
  | Except.error e => Except.error e
  | Except.ok () =>
    if isLocalDeployment deployToLocalEnvVar then
      localEnvChainIdChecks ethChainId arbChainId novaChainId
    else productionChainIdChecks ethChainId arbChainId novaChainId

/-! ### Helper lemmas -/

/-- filterMap is a map when the function is total on the list. -/
lemma filterMap_eq_map_of {α β : Type} (f : α → Option β) (g : α → β) :
    ∀ l : List α, (∀ x ∈ l, f x = some (g x)) → l.filterMap f = l.map g := by
  intro l
  induction l with
  | nil => intro _; rfl
  | cons a t ih =>
    intro h
    rw [List.filterMap_cons, List.map_cons, h a (by simp),
      ih (fun x hx => h x (by simp [hx]))]

/-- The batch loop splits into the evenly sized batches below
numOfBatches followed by the terminal remainder batch (empty when the
recipient count divides evenly or the start index is past the end). -/
lemma batchSlices_eq {α : Type} (recipients : List α) (batchSize startBatch : Nat) :
    batchSlices recipients batchSize startBatch =
      (List.range' startBatch (recipients.length / batchSize - startBatch)).map
          (fun i => (recipients.drop (i * batchSize)).take batchSize) ++
        (if startBatch ≤ recipients.length / batchSize ∧
            recipients.length ≠ recipients.length / batchSize * batchSize then
          [recipients.drop (recipients.length / batchSize * batchSize)]
        else []) := by
  simp only [batchSlices]
  by_cases hs : startBatch ≤ recipients.length / batchSize
  · have h1 : recipients.length / batchSize + 1 - startBatch
        = (recipients.length / batchSize - startBatch) + 1 := by omega
    have h2 : startBatch + (recipients.length / batchSize - startBatch)
        = recipients.length / batchSize := by omega
    rw [h1, List.range'_1_concat, h2, List.filterMap_append]
    congr 1
    · apply filterMap_eq_map_of
      intro i hi
      have hmem := List.mem_range'_1.mp hi
      have hilt : i < recipients.length / batchSize := by omega
      simp [hilt]
    · have hnn : ¬ recipients.length / batchSize < recipients.length / batchSize :=
        Nat.lt_irrefl _
      by_cases hex : recipients.length = recipients.length / batchSize * batchSize
      · rw [List.filterMap_cons_none (by rw [if_neg hnn, if_pos hex]),
          List.filterMap_nil, if_neg (fun hc => hc.2 hex)]
      · rw [List.filterMap_cons_some (by rw [if_neg hnn, if_neg hex]),
          List.filterMap_nil, if_pos ⟨hs, hex⟩]
  · have h1 : recipients.length / batchSize + 1 - startBatch = 0 := by omega
    have h2 : recipients.length / batchSize - startBatch = 0 := by omega
    rw [h1, h2]
    simp [hs]

/-- The polling loop consumes samples up to and including the first one
equal to basePrice, and diverges (none) when no sample equals it. -/
lemma gasGuardLoop_eq (basePrice : Nat) :
    ∀ rest : List Nat, gasGuardLoop rest basePrice =
      if basePrice ∈ rest then some (List.indexOf basePrice rest + 1) else none := by
  intro rest
  induction rest with
  | nil => simp [gasGuardLoop]
  | cons s t ih =>
    by_cases h : s = basePrice
    · subst h
      simp [gasGuardLoop, List.indexOf_cons_self]
    · have hne : s ≠ basePrice := h
      have hstep : gasGuardLoop (s :: t) basePrice
          = Option.map (fun n => n + 1) (gasGuardLoop t basePrice) := by
        simp [gasGuardLoop, h]
      rw [hstep, ih, List.indexOf_cons_ne t hne]
      by_cases hm : basePrice ∈ t
      · rw [if_pos hm, if_pos (List.mem_cons.mpr (Or.inr hm)), Option.map_some']
      · have hns : basePrice ∉ s :: t := by
          intro hq
          rcases List.mem_cons.mp hq with he | ht2
          · exact h he.symm
          · exact hm ht2
        rw [if_neg hm, if_neg hns]
        rfl

/-- An Option.isSome characterization of the points table: the switch
accepts exactly the closed set validPoints. -/
lemma amountForPoints_isSome_iff (p : Int) :
    (amountForPoints p).isSome = true ↔ p ∈ validPoints := by
  unfold amountForPoints validPoints
  split_ifs with h1 h2 h3 h4 h5 h6 <;> simp_all

/-- On an all-valid input, mapPointsToAmounts succeeds and returns the
keys and the table amounts, index aligned. -/
lemma mapPointsToAmounts_ok_of_valid :
    ∀ l : List (String × Int), (∀ kp ∈ l, (amountForPoints kp.2).isSome = true) →
      mapPointsToAmounts l =
        Except.ok (l.map Prod.fst, l.map (fun kp => (amountForPoints kp.2).getD 0)) := by
  intro l
  induction l with
  | nil => intro _; rfl
  | cons kp t ih =>
    intro h
    obtain ⟨a, ha⟩ := Option.isSome_iff_exists.mp (h kp (by simp))
    have ht := ih (fun x hx => h x (by simp [hx]))
    obtain ⟨k, p⟩ := kp
    simp only [mapPointsToAmounts, ha, ht, List.map_cons]
    simp [ha]

/-- On an input containing an invalid entry, mapPointsToAmounts fails
with the error naming the first invalid account. -/
lemma mapPointsToAmounts_error_of_invalid :
    ∀ l : List (String × Int), (∃ kp ∈ l, amountForPoints kp.2 = none) →
      ∃ k p, (k, p) ∈ l ∧ amountForPoints p = none ∧
        mapPointsToAmounts l = Except.error (pointsErrorMessage k p) := by
  intro l
  induction l with
  | nil => intro h; obtain ⟨kp, hm, _⟩ := h; cases hm
  | cons kp t ih =>
    intro h
    obtain ⟨k0, p0⟩ := kp
    cases ha : amountForPoints p0 with
    | none =>
      refine ⟨k0, p0, by simp, ha, ?_⟩
      simp [mapPointsToAmounts, ha]
    | some a =>
      have hex : ∃ kp ∈ t, amountForPoints kp.2 = none := by
        obtain ⟨kp2, hmem, hnone⟩ := h
        rcases List.mem_cons.mp hmem with heq | hmem2
        · subst heq; simp only at hnone; rw [hnone] at ha; cases ha
        · exact ⟨kp2, hmem2, hnone⟩
      obtain ⟨k, p, hm, hn, he⟩ := ih hex
      refine ⟨k, p, by simp [hm], hn, ?_⟩
      simp [mapPointsToAmounts, ha, he]

/-- A successful mapPointsToAmounts run returns exactly the input keys
and the table amounts. -/
lemma mapPointsToAmounts_ok_shape :
    ∀ (l : List (String × Int)) (rcps : List String) (amts : List Nat),
      mapPointsToAmounts l = Except.ok (rcps, amts) →
      rcps = l.map Prod.fst ∧
        amts = l.map (fun kp => (amountForPoints kp.2).getD 0) := by
  intro l
  induction l with
  | nil =>
    intro rcps amts h
    simp only [mapPointsToAmounts, Except.ok.injEq, Prod.mk.injEq] at h
    exact ⟨h.1.symm, h.2.symm⟩
  | cons kp t ih =>
    intro rcps amts h
    obtain ⟨k, p⟩ := kp
    cases ha : amountForPoints p with
    | none => simp [mapPointsToAmounts, ha] at h
    | some a =>
      cases ht : mapPointsToAmounts t with
      | error e => simp [mapPointsToAmounts, ha, ht] at h
      | ok pr =>
        obtain ⟨rcps2, amts2⟩ := pr
        simp only [mapPointsToAmounts, ha, ht, Except.ok.injEq, Prod.mk.injEq] at h
        obtain ⟨hr, ham⟩ := h
        obtain ⟨ihr, iham⟩ := ih rcps2 amts2 ht
        subst hr; subst ham
        simp [ihr, iham, ha]

/-- A successful mapPointsToAmounts run has only valid points. -/
lemma mapPointsToAmounts_ok_valid :
    ∀ (l : List (String × Int)) (res : List String × List Nat),
      mapPointsToAmounts l = Except.ok res →
      ∀ kp ∈ l, (amountForPoints kp.2).isSome = true := by
  intro l
  induction l with
  | nil => intro res _ kp hm; cases hm
  | cons hd t ih =>
    intro res h kp hm
    obtain ⟨k, p⟩ := hd
    cases ha : amountForPoints p with
    | none => simp [mapPointsToAmounts, ha] at h
    | some a =>
      cases ht : mapPointsToAmounts t with
      | error e => simp [mapPointsToAmounts, ha, ht] at h
      | ok pr =>
        rcases List.mem_cons.mp hm with heq | hmem2
        · subst heq; simp [ha]
        · exact ih pr ht kp hmem2

/-- Looking up a key in the zipped recipients-amounts table gives that
key's own table amount, provided the input keys are distinct. -/
lemma lookup_zip_amounts :
    ∀ l : List (String × Int), (l.map Prod.fst).Nodup →
      (∀ kp ∈ l, (amountForPoints kp.2).isSome = true) →
      ∀ k p, (k, p) ∈ l →
        List.lookup k ((l.map Prod.fst).zip
            (l.map (fun kp => (amountForPoints kp.2).getD 0))) = amountForPoints p := by
  intro l
  induction l with
  | nil => intro _ _ k p hm; cases hm
  | cons hd t ih =>
    intro hnd hv k p hm
    obtain ⟨k0, p0⟩ := hd
    simp only [List.map_cons, List.zip_cons_cons]
    simp only [List.map_cons] at hnd
    rw [List.nodup_cons] at hnd
    rcases List.mem_cons.mp hm with heq | hmem2
    · rw [Prod.mk.injEq] at heq
      obtain ⟨hk, hp⟩ := heq
      subst hk; subst hp
      obtain ⟨a, ha⟩ := Option.isSome_iff_exists.mp (hv (k, p) (by simp))
      simp [List.lookup, ha]
    · have hk : k ∈ t.map Prod.fst := List.mem_map.mpr ⟨(k, p), hmem2, rfl⟩
      have hne : ¬ (k == k0) = true := by
        intro hb
        have : k = k0 := by simpa using hb
        subst this
        exact hnd.1 hk
      rw [List.lookup]
      simp only [hne]
      exact ih hnd.2 (fun x hx => hv x (by simp [hx])) k p hmem2

/-- Every element produced by a filterMap satisfies any predicate that
holds of every value the function can produce. -/
lemma all_filterMap_of {α β : Type} (p : β → Bool) (f : α → Option β)
    (h : ∀ a b, f a = some b → p b = true) :
    ∀ l : List α, ((l.filterMap f).all p) = true := by
  intro l
  induction l with
  | nil => rfl
  | cons a t ih =>
    rw [List.filterMap_cons]
    cases hf : f a with
    | none => exact ih
    | some b => simp [h a b hf, ih]

/-! ### Claim theorems -/

/-- C1: With numOfBatches computed as the floor of
recipients.length / batchSize and the batch index iterated from the
start index through numOfBatches inclusive, every index below
numOfBatches submits the full batchSize slice starting at i * batchSize,
and the terminal index submits exactly the remainder slice when the
length is not an exact multiple of batchSize, and nothing when it is; in
particular with batchSize 100, 250 recipients yield the slices 0 to 100,
100 to 200, and 200 to 250, while 200 recipients yield only the two full
slices. -/
theorem setClaimRecipients_batch_slicing :
    (∀ (α : Type) (recipients : List α) (batchSize startBatch : Nat),
        batchSlices recipients batchSize startBatch =
          (List.range' startBatch (recipients.length / batchSize - startBatch)).map
              (fun i => (recipients.drop (i * batchSize)).take batchSize) ++
            (if startBatch ≤ recipients.length / batchSize ∧
                recipients.length ≠ recipients.length / batchSize * batchSize then
              [recipients.drop (recipients.length / batchSize * batchSize)]
            else [])) ∧
    batchSlices (List.range 250) 100 0 =
      [List.range' 0 100, List.range' 100 100, List.range' 200 50] ∧
    batchSlices (List.range 200) 100 0 = [List.range' 0 100, List.range' 100 100] :=
  ⟨fun _ recipients batchSize startBatch => batchSlices_eq recipients batchSize startBatch,
    by set_option maxRecDepth 40000 in decide, by set_option maxRecDepth 40000 in decide⟩

/-- C2: The gas guard returns immediately, after a single sample, when
the sampled price does not exceed the ceiling; when the first sample
exceeds the ceiling it polls and returns only upon the first sample
exactly equal to basePrice (none when no sample ever equals it, even one
below the ceiling); in particular the wei sample sequence for 0.15,
0.13, 0.10 gwei with ceiling 0.12 gwei and base 0.10 gwei returns after
exactly three samples. -/
theorem gasGuard_spec :
    (∀ (first : Nat) (rest : List Nat) (limit basePrice : Nat),
        first ≤ limit → gasGuard (first :: rest) limit basePrice = some 1) ∧
    (∀ (first : Nat) (rest : List Nat) (limit basePrice : Nat),
        limit < first →
        gasGuard (first :: rest) limit basePrice =
          if basePrice ∈ rest then some (List.indexOf basePrice rest + 2) else none) ∧
    gasGuard [150000000, 130000000, 100000000]
      GAS_PRICE_UNACCEPTABLE_LIMIT BASE_GAS_PRICE = some 3 := by
  refine ⟨?_, ?_, by decide⟩
  · intro first rest limit basePrice h
    have hng : ¬ first > limit := by omega
    simp [gasGuard, hng]
  · intro first rest limit basePrice h
    have hg : first > limit := h
    simp only [gasGuard, if_pos hg, gasGuardLoop_eq]
    by_cases hm : basePrice ∈ rest
    · rw [if_pos hm, if_pos hm, Option.map_some']
    · rw [if_neg hm, if_neg hm]
      rfl

/-- C2 witness: the guard applied to a below-ceiling first sample and to
an above-ceiling first sample followed by an exact base-price sample. -/
theorem gasGuard_spec_witness :
    gasGuard [100000000] 120000000 100000000 = some 1 ∧
    gasGuard [150000000, 100000000] 120000000 100000000 =
      (if 100000000 ∈ [100000000] then
        some (List.indexOf 100000000 [100000000] + 2)
      else none) :=
  ⟨gasGuard_spec.1 100000000 [] 120000000 100000000 (by decide),
    gasGuard_spec.2.1 150000000 [100000000] 120000000 100000000 (by decide)⟩

/-- C3: Points 3, 4, 5, 6, 7 map to 3000, 4500, 6000, 9000, 10500
tokens and 8 through 15 map to 12000 tokens (in 10^18 units); an input
whose points all lie in the closed set succeeds with exactly the table
amounts, and an input containing a points value outside the set fails as
a whole with an error naming an offending account. -/
theorem mapPointsToAmounts_table :
    validPoints.map amountForPoints =
      [some (parseEther 3000), some (parseEther 4500), some (parseEther 6000),
        some (parseEther 9000), some (parseEther 10500), some (parseEther 12000),
        some (parseEther 12000), some (parseEther 12000), some (parseEther 12000),
        some (parseEther 12000), some (parseEther 12000), some (parseEther 12000),
        some (parseEther 12000)] ∧
    (∀ l : List (String × Int), (∀ kp ∈ l, kp.2 ∈ validPoints) →
      mapPointsToAmounts l =
        Except.ok (l.map Prod.fst, l.map (fun kp => (amountForPoints kp.2).getD 0))) ∧
    (∀ l : List (String × Int), (∃ kp ∈ l, kp.2 ∉ validPoints) →
      ∃ k p, (k, p) ∈ l ∧ p ∉ validPoints ∧
        mapPointsToAmounts l = Except.error (pointsErrorMessage k p)) := by
  refine ⟨by decide, ?_, ?_⟩
  · intro l h
    exact mapPointsToAmounts_ok_of_valid l
      (fun kp hkp => (amountForPoints_isSome_iff kp.2).mpr (h kp hkp))
  · intro l h
    obtain ⟨kp, hm, hnv⟩ := h
    have hnone : amountForPoints kp.2 = none := by
      cases ha : amountForPoints kp.2 with
      | none => rfl
      | some a =>
        exact absurd ((amountForPoints_isSome_iff kp.2).mp (by simp [ha])) hnv
    obtain ⟨k, p, hkm, hkn, hke⟩ :=
      mapPointsToAmounts_error_of_invalid l ⟨kp, hm, hnone⟩
    refine ⟨k, p, hkm, ?_, hke⟩
    intro hvp
    have hsome := (amountForPoints_isSome_iff p).mpr hvp
    rw [hkn] at hsome
    simp at hsome

/-- C3 witness: a fully valid two-account input succeeds with the table
amounts, and an input with an out-of-range points value fails naming the
account. -/
theorem mapPointsToAmounts_table_witness :
    mapPointsToAmounts [("alice", 3), ("bob", 8)] =
      Except.ok ([("alice", (3 : Int)), ("bob", 8)].map Prod.fst,
        [("alice", (3 : Int)), ("bob", 8)].map
          (fun kp => (amountForPoints kp.2).getD 0)) ∧
    ∃ k p, (k, p) ∈ [("carol", (2 : Int))] ∧ p ∉ validPoints ∧
      mapPointsToAmounts [("carol", (2 : Int))] =
        Except.error (pointsErrorMessage k p) :=
  ⟨mapPointsToAmounts_table.2.1 [("alice", 3), ("bob", 8)] (by decide),
    mapPointsToAmounts_table.2.2 [("carol", (2 : Int))] (by decide)⟩

/-- C9: On a successful run, mapPointsToAmounts returns two arrays of
equal length, one entry per input account, index aligned so that the
amount at position i is the table amount for the points of the account
at position i; zipping them therefore assigns every account its own
entitlement (never another account's) when the input keys are unique. -/
theorem mapPointsToAmounts_aligned :
    ∀ (l : List (String × Int)) (rcps : List String) (amts : List Nat),
      mapPointsToAmounts l = Except.ok (rcps, amts) →
      (rcps.length = amts.length ∧
        rcps = l.map Prod.fst ∧
        (∀ i : Nat,
          amts[i]? = Option.map (fun kp => (amountForPoints kp.2).getD 0) l[i]?)) ∧
      ((l.map Prod.fst).Nodup →
        ∀ k p, (k, p) ∈ l → List.lookup k (rcps.zip amts) = amountForPoints p) := by
  intro l rcps amts h
  obtain ⟨hr, ha⟩ := mapPointsToAmounts_ok_shape l rcps amts h
  subst hr
  subst ha
  refine ⟨⟨by simp, rfl, ?_⟩, ?_⟩
  · intro i
    rw [List.getElem?_map]
  · intro hnd k p hm
    exact lookup_zip_amounts l hnd
      (mapPointsToAmounts_ok_valid l (l.map Prod.fst,
        l.map (fun kp => (amountForPoints kp.2).getD 0)) h) k p hm

/-- C9 witness: on a concrete two-account input the zipped table gives
the second account its own amount. -/
theorem mapPointsToAmounts_aligned_witness :
    List.lookup "b" ((["a", "b"]).zip [parseEther 3000, parseEther 4500]) =
      amountForPoints 4 :=
  (mapPointsToAmounts_aligned [("a", 3), ("b", 4)] ["a", "b"]
      [parseEther 3000, parseEther 4500] (by rfl)).2 (by decide) "b" 4 (by decide)

/-- C4 counterexample: with completion markers for steps 1 through 8
pre-populated, the gated sequencer of the specification would begin at
step 9 (initL1Governance), but deployGovernance does not: it still
executes steps 1 through 8. -/
theorem deployGovernance_resume_counterexample :
    gatedDeploySteps ((governanceDeploySequence.take 8).map stepName) =
      governanceDeploySequence.drop 8 ∧
    deployGovernanceSteps ((governanceDeploySequence.take 8).map stepName) ≠
      governanceDeploySequence.drop 8 := by
  refine ⟨by decide, by decide⟩

/-- C4 amended: no deployment step is gated by a completion check:
deployGovernance never reads the progress store, so rerunning it
executes all thirteen steps in order regardless of which steps the
store already marks done. -/
theorem deployGovernance_executes_all_steps :
    ∀ progressStore : List String,
      deployGovernanceSteps progressStore = governanceDeploySequence :=
  fun _ => rfl

/-- C5 counterexample: the deployGovernance event trace has consecutive
steps with no disk persist between them, so step artifacts are not
persisted to disk before the next step begins. -/
theorem deployGovernance_persist_counterexample :
    eachStepPersisted deployGovernanceTrace = false := by decide

/-- C5 amended: step artifacts are only accumulated in the in-memory
map during the run; the store is written to disk exactly once, by
writeAddresses after the final step, so termination at any earlier
point loses every step's progress rather than at most the in-flight
step's. -/
theorem deployGovernance_single_final_persist :
    deployGovernanceTrace.count DeployEvent.persistDisk = 1 ∧
    deployGovernanceTrace.getLast? = some DeployEvent.persistDisk ∧
    deployGovernanceTrace.dropLast.count DeployEvent.persistDisk = 0 := by
  refine ⟨by decide, by decide, by decide⟩

/-- C6 counterexample: over 250 recipients with batch size 100 starting
at index 0, the loop submits batch 0 but never persists a cursor value
of 1 (or any cursor at all), refuting the claimed
persist-cursor-before-next-batch behaviour. -/
theorem setClaimRecipients_cursor_counterexample :
    (setClaimRecipientsEvents (List.replicate 250 ("r")) 100 0).contains
      (BatchEvent.submitBatch 0) = true ∧
    (setClaimRecipientsEvents (List.replicate 250 ("r")) 100 0).contains
      (BatchEvent.persistCursor 1) = false := by
  refine ⟨by set_option maxRecDepth 40000 in decide,
    by set_option maxRecDepth 40000 in decide⟩

/-- C6 amended: the batch loop emits only batch submissions — its body
contains no progress-store write, so no cursor is ever persisted and a
rerun can resume only from the compile-time start constant, not from
the first unconfirmed batch. -/
theorem setClaimRecipients_no_cursor_writes :
    ∀ (recipients : List String) (batchSize startBatch : Nat),
      (setClaimRecipientsEvents recipients batchSize startBatch).all isSubmitEvent
        = true := by
  intro recipients batchSize startBatch
  simp only [setClaimRecipientsEvents]
  apply all_filterMap_of
  intro a b hab
  cases b with
  | submitBatch i => rfl
  | persistCursor v =>
    exfalso
    split_ifs at hab <;> simp at hab

/-- C7 counterexample: at a concrete location and payload, persisting
the deployed-contracts record matches no write-to-temp-then-rename
pattern — it is a single direct write of the target file. -/
theorem updateDeployedContracts_not_atomic :
    atomicReplace
        (updateDeployedContracts ("deployedContracts.json") ("serialized"))
        ("deployedContracts.json") = false ∧
    atomicReplace (writeAddresses ("serialized")) DEPLOYED_CONTRACTS_FILE_NAME
      = false :=
  ⟨rfl, rfl⟩

/-- C7 amended: both persistence routines perform exactly one direct
writeFileSync of the serialized record to the target path — no
temporary file, no rename — so a crash mid-write can leave a partially
written store. -/
theorem updateDeployedContracts_direct_write :
    ∀ deployedContractsLocation serializedCache : String,
      updateDeployedContracts deployedContractsLocation serializedCache =
        [FsOp.writeFileSync deployedContractsLocation serializedCache] ∧
      atomicReplace (updateDeployedContracts deployedContractsLocation serializedCache)
          deployedContractsLocation = false ∧
      writeAddresses serializedCache =
        [FsOp.writeFileSync DEPLOYED_CONTRACTS_FILE_NAME serializedCache] ∧
      atomicReplace (writeAddresses serializedCache) DEPLOYED_CONTRACTS_FILE_NAME
        = false :=
  fun _ _ => ⟨rfl, rfl, rfl, rfl⟩

/-- C8: The L1 token post-deployment step succeeds exactly when both
cross-chain retryable messages reach REDEEMED; a non-redeemed
register-token message is a fatal error carrying the observed status,
and with the register-token message redeemed, a non-redeemed
set-gateway message is a fatal error carrying that observed status. -/
theorem postDeploymentL1Token_redeemed_required :
    ∀ setTokenStatus setGatewaysStatus : Nat,
      (postDeploymentL1TokenStatusChecks setTokenStatus setGatewaysStatus =
          Except.ok () ↔
        setTokenStatus = REDEEMED ∧ setGatewaysStatus = REDEEMED) ∧
      (setTokenStatus ≠ REDEEMED →
        postDeploymentL1TokenStatusChecks setTokenStatus setGatewaysStatus =
          Except.error
            ("Register token L1 to L2 message not redeemed. Status: " ++
              toString setTokenStatus)) ∧
      (setTokenStatus = REDEEMED → setGatewaysStatus ≠ REDEEMED →
        postDeploymentL1TokenStatusChecks setTokenStatus setGatewaysStatus =
          Except.error
            ("Set gateway L1 to L2 message not redeemed. Status: " ++
              toString setGatewaysStatus)) := by
  intro s g
  unfold postDeploymentL1TokenStatusChecks
  refine ⟨?_, ?_, ?_⟩
  · split_ifs with h1 h2 <;> simp_all
  · intro h
    rw [if_pos h]
  · intro h1 h2
    rw [if_neg (fun hc => hc h1), if_pos h2]

/-- C8 witness: a non-redeemed register-token status fails with its
status in the message, and both statuses redeemed succeed. -/
theorem postDeploymentL1Token_redeemed_required_witness :
    postDeploymentL1TokenStatusChecks 3 4 =
      Except.error
        ("Register token L1 to L2 message not redeemed. Status: " ++
          toString (3 : Nat)) ∧
    postDeploymentL1TokenStatusChecks 4 4 = Except.ok () :=
  ⟨(postDeploymentL1Token_redeemed_required 3 4).2.1 (by decide),
    ((postDeploymentL1Token_redeemed_required 4 4).1).mpr ⟨rfl, rfl⟩⟩

/-- C10 counterexample: with DEPLOY_TO_LOCAL_ENVIRONMENT unset the run
does not proceed to the local-mode chain-id checks, although
isLocalDeployment itself would be true: the checkEnvVars gate of
getDeployersAndConfig throws the missing-variable startup error first
(at chain ids 2, 3, 4 the local checks would succeed, yet the run
yields the startup error instead). -/
theorem isLocalDeployment_unset_counterexample :
    isLocalDeployment none = true ∧
    getDeployersAndConfigChainIdChecks none 2 3 4 =
      Except.error ("Missing isLocalDeployment in env vars") ∧
    getDeployersAndConfigChainIdChecks none 2 3 4 ≠ localEnvChainIdChecks 2 3 4 := by
  refine ⟨rfl, rfl, ?_⟩
  intro h
  have h2 : (Except.error ("Missing isLocalDeployment in env vars") : Except String Unit)
      = Except.ok () := h
  exact Except.noConfusion h2

/-- C10 amended: production mode is selected only by the exact string
"false": every other set value of DEPLOY_TO_LOCAL_ENVIRONMENT — empty,
differently cased, or misspelled — makes isLocalDeployment true and
getDeployersAndConfig run the local-environment chain-id checks instead
of the production ones; an unset variable, however, aborts the run at
startup with the missing-variable error before any chain-id check. -/
theorem isLocalDeployment_only_exact_false :
    (∀ v : Option String, isLocalDeployment v = false ↔ v = some "false") ∧
    isLocalDeployment none = true ∧
    isLocalDeployment (some "") = true ∧
    isLocalDeployment (some "False") = true ∧
    isLocalDeployment (some "flase") = true ∧
    (∀ s : String, s ≠ "false" →
      ∀ ethChainId arbChainId novaChainId : Nat,
        getDeployersAndConfigChainIdChecks (some s) ethChainId arbChainId novaChainId =
          localEnvChainIdChecks ethChainId arbChainId novaChainId) ∧
    (∀ ethChainId arbChainId novaChainId : Nat,
      getDeployersAndConfigChainIdChecks none ethChainId arbChainId novaChainId =
        Except.error ("Missing isLocalDeployment in env vars")) := by
  refine ⟨?_, by decide, by decide, by decide, by decide, ?_, fun _ _ _ => rfl⟩
  · intro v
    simp [isLocalDeployment]
  · intro s hs ethChainId arbChainId novaChainId
    have hl : isLocalDeployment (some s) = true := by
      simp [isLocalDeployment]
      exact hs
    simp [getDeployersAndConfigChainIdChecks, checkIsLocalDeploymentVar, hl]

/-- C10 witness: a misspelled set value runs the local-environment
checks, while the unset variable yields the startup error. -/
theorem isLocalDeployment_only_exact_false_witness :
    getDeployersAndConfigChainIdChecks (some ("flase")) 1 2 3 =
      localEnvChainIdChecks 1 2 3 ∧
    getDeployersAndConfigChainIdChecks none 1 2 3 =
      Except.error ("Missing isLocalDeployment in env vars") :=
  ⟨isLocalDeployment_only_exact_false.2.2.2.2.2.1 "flase" (by decide) 1 2 3,
    isLocalDeployment_only_exact_false.2.2.2.2.2.2 1 2 3⟩
